import Mathlib

/-!
# Soil sensor node: one wake cycle of `src/sensors/soil_sensor/src/main.cpp`

The firmware is embedded shallowly.

* Integer code (`constrain`, `map`, the retry counters) works on `Int`/`Nat`; every
  intermediate value of the calibration stays far below `2^31`, so no wrap-around arises.
* C `float`/`double` values are the rational numbers they denote.  A floating-point
  operation is the exact operation followed by `roundTo p` (round to nearest, ties to
  even, `p` significant bits: 24 for `float`, 53 for `double`).  The exponent range is
  not bounded, which agrees with IEEE 754 arithmetic as long as no overflow or
  underflow happens; the theorems on `readSoilTemperature` range over the values the
  probe driver reports and bound the result, so they stay inside that range.  "Not a
  number" is a separate `none`.
* The drivers and network stacks (`analogRead`, DallasTemperature, DHT, WiFi,
  PubSubClient, the ESP sleep calls) are collaborators.  A collaborator call answers as
  a function of everything that happened before it in the cycle, and every call is
  appended to a chronological trace of events.  `Serial` diagnostics influence nothing
  and are left out of the trace.
-/

namespace SoilSensor

/-! ## Configuration constants -/

/-- Calibration: raw reading of dry soil (`#define SOIL_DRY 3500`). -/
def SOIL_DRY : Int := 3500

/-- Calibration: raw reading of wet soil (`#define SOIL_WET 1500`). -/
def SOIL_WET : Int := 1500

/-- Analog pin of the moisture sensor (`#define SOIL_MOISTURE_PIN 34`). -/
def SOIL_MOISTURE_PIN : Nat := 34

/-- Sleep interval in seconds (`#define SLEEP_DURATION_SEC 900`). -/
def SLEEP_DURATION_SEC : Nat := 900

/-- Value by which DallasTemperature reports a missing probe
(`#define DEVICE_DISCONNECTED_C -127` in DallasTemperature.h). -/
def DEVICE_DISCONNECTED_C : Int := -127

/-! ## Platform arithmetic -/

/-- Arduino macro `constrain(amt,low,high)`:
`((amt)<(low)?(low):((amt)>(high)?(high):(amt)))`. -/
def constrain (amt low high : Int) : Int :=
  if amt < low then low else if amt > high then high else amt

/-- Arduino core `map` (WMath.cpp of the ESP32 core): `long` arithmetic, the division
truncates toward zero as in C, a degenerate input range yields `-1`. -/
def map (x in_min in_max out_min out_max : Int) : Int :=
  let run := in_max - in_min
  if run = 0 then -1
  else
    let rise := out_max - out_min
    let delta := x - in_min
    Int.tdiv (delta * rise) run + out_min

/-- Nearest integer of a rational, ties to the even neighbour. -/
def roundHalfEven (y : ℚ) : ℤ :=
  let f := ⌊y⌋
  let r := y - f
  if r < 1 / 2 then f else if 1 / 2 < r then f + 1 else if f % 2 = 0 then f else f + 1

/-- Round `x` to the nearest binary floating-point number with `p` significant bits
(ties to even).  `Int.log 2 |x|` is the exponent of the leading bit of `x`. -/
def roundTo (p : ℕ) (x : ℚ) : ℚ :=
  if x = 0 then 0
  else
    let e : ℤ := Int.log 2 |x| + 1 - p
    (roundHalfEven (x / 2 ^ e) : ℚ) * 2 ^ e

/-- Conversion to C `float` (24 significant bits). -/
def toFloat (x : ℚ) : ℚ := roundTo 24 x

/-- Result of a C `double` operation (53 significant bits). -/
def toDouble (x : ℚ) : ℚ := roundTo 53 x

/-! ## Sensor readers (the computation on the value the collaborator returned) -/

/-- `readSoilMoisture`, as a function of the value `analogRead(SOIL_MOISTURE_PIN)`
returned: constrain to the calibration range, `map` to 0..100 with inverted polarity,
store the `long` result in a `float`. -/
def readSoilMoisture (rawValue : Int) : ℚ :=
  let rawValue := constrain rawValue SOIL_WET SOIL_DRY
  let moisture := toFloat (map rawValue SOIL_DRY SOIL_WET 0 100)
  moisture

/-- The linear map the specification describes, as an exact rational:
`100 * (SOIL_DRY - c) / (SOIL_DRY - SOIL_WET)` with `c` the raw value clamped into
`[SOIL_WET, SOIL_DRY]`. -/
def exactPercent (r : Int) : ℚ :=
  100 * ((SOIL_DRY : ℚ) - (constrain r SOIL_WET SOIL_DRY : ℤ)) / ((SOIL_DRY : ℚ) - SOIL_WET)

/-- `readSoilTemperature`, as a function of the value `getTempCByIndex(0)` returned.
`tempC * 9.0 / 5.0 + 32.0` is evaluated in `double` (the literals are `double`) and
the result is narrowed to `float`; `return -999` when the probe is reported missing.
The embedding is that of the C code for every finite `tempC` whose result does not
overflow `float` (magnitude below about 1.8e38), which covers every value the probe
driver reports: -127, or a multiple of 1/128 above -55. -/
def readSoilTemperature (tempC : ℚ) : ℚ :=
  let tempF := toFloat (toDouble (toDouble (toDouble (tempC * 9) / 5) + 32))
  if tempC = DEVICE_DISCONNECTED_C then -999 else tempF

/-- `readAirTemperature`, as a function of what `dht.readTemperature(true)` returned
(`none` is "not a number"). -/
def readAirTemperature (tempF : Option ℚ) : ℚ :=
  match tempF with
  | none => -999
  | some v => v

/-- `readAirHumidity`, as a function of what `dht.readHumidity()` returned
(`none` is "not a number"). -/
def readAirHumidity (humidity : Option ℚ) : ℚ :=
  match humidity with
  | none => -999
  | some v => v

/-! ## JSON document (ArduinoJson `StaticJsonDocument`) -/

/-- A number stored in a JSON document. -/
inductive JsonValue where
  | float (v : ℚ)
  | int (v : ℤ)
  deriving DecidableEq

/-- The members of a JSON object, in insertion order. -/
abbrev JsonDocument := List (String × JsonValue)

/-- Number of members a `StaticJsonDocument<256>` holds on the ESP32 (ArduinoJson 6
uses 16 bytes per member; the keys are string literals and are not copied). -/
def JSON_CAPACITY : Nat := 256 / 16

/-- Assignment `doc[key] = v`: replaces the value of an existing member, otherwise
appends a member; a full document ignores the assignment. -/
def JsonDocument.set (doc : JsonDocument) (key : String) (v : JsonValue) : JsonDocument :=
  if doc.any (fun kv => kv.1 == key) then
    doc.map (fun kv => if kv.1 == key then (key, v) else kv)
  else if doc.length < JSON_CAPACITY then doc ++ [(key, v)]
  else doc

/-- One call to a collaborator, with the arguments that matter and the answer. -/
inductive Event where
  | delay (ms : Nat)
  | pinMode (pin : Nat)
  | soilTempBegin
  | dhtBegin
  | analogRead (pin : Nat) (value : Int)
  | requestTemperatures
  | getTempCByIndex (value : ℚ)
  | dhtReadTemperature (value : Option ℚ)
  | dhtReadHumidity (value : Option ℚ)
  | wifiBegin
  | wifiStatus (connected : Bool)
  | wifiLocalIP
  | wifiRSSI (value : Int)
  | wifiDisconnect
  | wifiModeOff
  | mqttSetServer
  | mqttConnected (result : Bool)
  | mqttConnect (accepted : Bool)
  | mqttState
  | mqttPublish (topic : String) (payload : JsonDocument) (accepted : Bool)
  | mqttLoop
  | mqttDisconnect
  | sleepEnableTimerWakeup (us : Nat)
  | deepSleepStart
  deriving DecidableEq

/-- Chronological record of the collaborator calls of a cycle. -/
abbrev Trace := List Event

/-- Behaviour of the collaborators: each answer may depend on the whole history. -/
structure Env where
  /-- `analogRead(pin)` -/
  analogRead : Trace → Nat → Int
  /-- `soilTempSensor.getTempCByIndex(0)` -/
  getTempCByIndex : Trace → ℚ
  /-- `dht.readTemperature(true)`, `none` for "not a number" -/
  dhtReadTemperature : Trace → Option ℚ
  /-- `dht.readHumidity()`, `none` for "not a number" -/
  dhtReadHumidity : Trace → Option ℚ
  /-- `WiFi.status() == WL_CONNECTED` -/
  wifiStatus : Trace → Bool
  /-- `WiFi.RSSI()` -/
  wifiRSSI : Trace → Int
  /-- `mqtt.connected()` -/
  mqttConnected : Trace → Bool
  /-- `mqtt.connect("ESP32_SoilSensor", DEVICE_TOKEN, NULL)` -/
  mqttConnect : Trace → Bool
  /-- `mqtt.publish("v1/devices/me/telemetry", payload)` -/
  mqttPublish : Trace → JsonDocument → Bool

/-- The four values read at the start of a cycle. -/
structure Readings where
  soilMoisture : ℚ
  soilTemp : ℚ
  airTemp : ℚ
  airHumidity : ℚ

/-- Milliseconds spent in a `delay` call (0 for any other event). -/
def delayOf : Event → Nat
  | Event.delay ms => ms
  | _ => 0

/-- Total blocking delay recorded in a trace, in milliseconds. -/
def totalDelay (tr : Trace) : Nat := (tr.map delayOf).sum

/-- A session-layer connect attempt or a publish. -/
def isSessionAction : Event → Bool
  | Event.mqttConnect _ => true
  | Event.mqttPublish _ _ _ => true
  | _ => false

/-- A session-layer connect attempt. -/
def isConnectAttempt : Event → Bool
  | Event.mqttConnect _ => true
  | _ => false

/-- A publish. -/
def isPublish : Event → Bool
  | Event.mqttPublish _ _ _ => true
  | _ => false

/-- Events of the sensor and link layers: everything the cycle may do before the
session layer is touched. -/
def isLinkLayer : Event → Bool
  | Event.delay _ => true
  | Event.pinMode _ => true
  | Event.soilTempBegin => true
  | Event.dhtBegin => true
  | Event.analogRead _ _ => true
  | Event.requestTemperatures => true
  | Event.getTempCByIndex _ => true
  | Event.dhtReadTemperature _ => true
  | Event.dhtReadHumidity _ => true
  | Event.wifiBegin => true
  | Event.wifiStatus _ => true
  | Event.wifiLocalIP => true
  | _ => false

/-- The list `block` repeated `k` times. -/
def repeatEvents : Nat → List Event → List Event
  | 0, _ => []
  | k + 1, block => block ++ repeatEvents k block

/-- Every session action of the trace has an observation "link connected" before it. -/
def SessionAfterLink (tr : Trace) : Prop :=
  ∀ pre e post, tr = pre ++ e :: post → isSessionAction e = true →
    Event.wifiStatus true ∈ pre

/-! ## The cycle -/

/-- Lines 216-219 of `setup`: the four readers, each on its collaborator's answer. -/
def readSensors (env : Env) (tr : Trace) : Readings × Trace :=
  let raw := env.analogRead tr SOIL_MOISTURE_PIN
  let tr := tr ++ [Event.analogRead SOIL_MOISTURE_PIN raw]
  let soilMoisture := readSoilMoisture raw
  let tr := tr ++ [Event.requestTemperatures]
  let tempC := env.getTempCByIndex tr
  let tr := tr ++ [Event.getTempCByIndex tempC]
  let soilTemp := readSoilTemperature tempC
  let t := env.dhtReadTemperature tr
  let tr := tr ++ [Event.dhtReadTemperature t]
  let airTemp := readAirTemperature t
  let h := env.dhtReadHumidity tr
  let tr := tr ++ [Event.dhtReadHumidity h]
  let airHumidity := readAirHumidity h
  (⟨soilMoisture, soilTemp, airTemp, airHumidity⟩, tr)

/-- The polling loop of `connectWiFi`:
`while (WiFi.status() != WL_CONNECTED && attempts < 30) { delay(500); attempts++; }`. -/
def connectWiFiLoop (env : Env) (attempts : Nat) (tr : Trace) : Trace :=
  let s := env.wifiStatus tr
  let tr := tr ++ [Event.wifiStatus s]
  if !s && attempts < 30 then
    connectWiFiLoop env (attempts + 1) (tr ++ [Event.delay 500])
  else tr
termination_by 30 - attempts
decreasing_by simp_wf; simp at *; omega

/-- `connectWiFi`. -/
def connectWiFi (env : Env) (tr : Trace) : Trace :=
  let tr := tr ++ [Event.wifiBegin]
  let tr := connectWiFiLoop env 0 tr
  let s := env.wifiStatus tr
  let tr := tr ++ [Event.wifiStatus s]
  if s then tr ++ [Event.wifiLocalIP] else tr

/-- The retry loop of `connectMQTT`; `attempts` is incremented only in the branch of a
rejected connect.  `fuel` bounds the number of evaluations of the loop condition; the
flag tells whether the loop was left (`false`: still inside when the fuel ran out). -/
def connectMQTTLoop (env : Env) : Nat → Nat → Trace → Trace × Bool
  | 0, _, tr => (tr, false)
  | fuel + 1, attempts, tr =>
    let c := env.mqttConnected tr
    let tr := tr ++ [Event.mqttConnected c]
    if !c && attempts < 5 then
      let a := env.mqttConnect tr
      let tr := tr ++ [Event.mqttConnect a]
      if a then connectMQTTLoop env fuel attempts tr
      else connectMQTTLoop env fuel (attempts + 1) (tr ++ [Event.mqttState, Event.delay 2000])
    else (tr, true)

/-- `connectMQTT`. -/
def connectMQTT (env : Env) (fuel : Nat) (tr : Trace) : Trace × Bool :=
  connectMQTTLoop env fuel 0 (tr ++ [Event.mqttSetServer])

/-- The `battery_voltage` expression `analogRead(35) * 3.3 / 4095 * 2`, in `double`. -/
def batteryVoltage (raw : Int) : ℚ :=
  toDouble (toDouble (toDouble ((raw : ℚ) * toDouble (33 / 10)) / 4095) * 2)

/-- `sendTelemetry`.  The published payload is recorded as the document handed to
`serializeJson`. -/
def sendTelemetry (env : Env) (soilMoisture soilTemp airTemp airHumidity : ℚ)
    (tr : Trace) : Trace :=
  let c := env.mqttConnected tr
  let tr := tr ++ [Event.mqttConnected c]
  if !c then tr
  else
    let doc : JsonDocument := []
    let doc := doc.set "soil_moisture" (JsonValue.float soilMoisture)
    let doc := doc.set "soil_temp" (JsonValue.float soilTemp)
    let doc := doc.set "air_temp" (JsonValue.float airTemp)
    let doc := doc.set "air_humidity" (JsonValue.float airHumidity)
    let raw := env.analogRead tr 35
    let tr := tr ++ [Event.analogRead 35 raw]
    let doc := doc.set "battery_voltage" (JsonValue.float (batteryVoltage raw))
    let rssi := env.wifiRSSI tr
    let tr := tr ++ [Event.wifiRSSI rssi]
    let doc := doc.set "rssi" (JsonValue.int rssi)
    let ok := env.mqttPublish tr doc
    tr ++ [Event.mqttPublish "v1/devices/me/telemetry" doc ok]

/-- The calls of `enterDeepSleep`, in order. -/
def powerDown : List Event :=
  [Event.sleepEnableTimerWakeup (SLEEP_DURATION_SEC * 1000000), Event.wifiDisconnect,
    Event.wifiModeOff, Event.deepSleepStart]

/-- `enterDeepSleep`. -/
def enterDeepSleep (tr : Trace) : Trace := tr ++ powerDown

/-- The calls of `setup` before the sensors are read. -/
def boot : Trace :=
  [Event.delay 100, Event.pinMode SOIL_MOISTURE_PIN, Event.soilTempBegin, Event.dhtBegin,
    Event.delay 2000]

/-- The cycle up to the return of `connectWiFi` (lines 199-222 of `setup`). -/
def linkPhase (env : Env) : Trace :=
  connectWiFi env (readSensors env boot).2

/-- `setup`: one wake cycle.  The flag is `false` when the fuel ran out inside the
loop of `connectMQTT`; the trace then is what the cycle had done so far. -/
def setup (env : Env) (fuel : Nat) : Trace × Bool :=
  let r := (readSensors env boot).1
  let tr := linkPhase env
  let s := env.wifiStatus tr
  let tr := tr ++ [Event.wifiStatus s]
  if s then
    match connectMQTT env fuel tr with
    | (tr, false) => (tr, false)
    | (tr, true) =>
      let tr := sendTelemetry env r.soilMoisture r.soilTemp r.airTemp r.airHumidity tr
      let tr := tr ++ [Event.mqttLoop, Event.delay 1000, Event.mqttDisconnect]
      (enterDeepSleep tr, true)
  else (enterDeepSleep tr, true)

/-! ## Collaborator behaviours used as concrete inputs -/

/-- A collaborator set answering every call with a constant. -/
def constEnv (link connected accept : Bool) (tempC : ℚ) : Env where
  analogRead := fun _ _ => 2500
  getTempCByIndex := fun _ => tempC
  dhtReadTemperature := fun _ => some 70
  dhtReadHumidity := fun _ => none
  wifiStatus := fun _ => link
  wifiRSSI := fun _ => -60
  mqttConnected := fun _ => connected
  mqttConnect := fun _ => accept
  mqttPublish := fun _ _ => true

/-- Link up, broker accepting every connect, session reported connected exactly when a
connect has been accepted; the probe answers `tempC`. -/
def goodEnv (tempC : ℚ) : Env where
  analogRead := fun _ _ => 2500
  getTempCByIndex := fun _ => tempC
  dhtReadTemperature := fun _ => some 70
  dhtReadHumidity := fun _ => none
  wifiStatus := fun _ => true
  wifiRSSI := fun _ => -60
  mqttConnected := fun t => decide (Event.mqttConnect true ∈ t)
  mqttConnect := fun _ => true
  mqttPublish := fun _ _ => true

/-! ## Lemmas on the platform arithmetic -/

theorem roundHalfEven_intCast (z : ℤ) : roundHalfEven (z : ℚ) = z := by
  simp [roundHalfEven]

/-- An integer of magnitude below `2^p` is a floating-point number of precision `p`. -/
theorem roundTo_intCast (p : ℕ) (n : ℤ) (h : |n| < 2 ^ p) : roundTo p (n : ℚ) = n := by
  unfold roundTo
  by_cases h0 : (n : ℚ) = 0
  · simp [h0]
  · rw [if_neg h0]
    have habs : (0 : ℚ) < |(n : ℚ)| := abs_pos.mpr h0
    have hlt : |(n : ℚ)| < ((2 : ℕ) : ℚ) ^ ((p : ℕ) : ℤ) := by
      have : ((|n| : ℤ) : ℚ) < ((2 ^ p : ℤ) : ℚ) := by exact_mod_cast h
      simpa [Int.cast_abs] using this
    have hlog : Int.log 2 |(n : ℚ)| < (p : ℤ) :=
      (Int.lt_zpow_iff_log_lt (by norm_num) habs).mp hlt
    obtain ⟨k, hk⟩ : ∃ k : ℕ, Int.log 2 |(n : ℚ)| + 1 - p = -(k : ℤ) :=
      ⟨(-(Int.log 2 |(n : ℚ)| + 1 - p)).toNat, by
        have : 0 ≤ -(Int.log 2 |(n : ℚ)| + 1 - p) := by omega
        rw [Int.toNat_of_nonneg this]; ring⟩
    simp only [hk]
    have h2 : (n : ℚ) / 2 ^ (-(k : ℤ)) = ((n * 2 ^ k : ℤ) : ℚ) := by
      rw [zpow_neg, zpow_natCast]; push_cast; field_simp
    rw [h2, roundHalfEven_intCast]
    rw [zpow_neg, zpow_natCast]; push_cast; field_simp

theorem constrain_mem (r : Int) :
    SOIL_WET ≤ constrain r SOIL_WET SOIL_DRY ∧ constrain r SOIL_WET SOIL_DRY ≤ SOIL_DRY := by
  unfold constrain SOIL_WET SOIL_DRY
  split_ifs <;> omega

/-- The product inside `map` fits a 32-bit `long` for every raw value. -/
theorem map_product_fits (r : Int) :
    |(constrain r SOIL_WET SOIL_DRY - SOIL_DRY) * (100 - 0)| < 2 ^ 31 := by
  have h1 : (1500 : Int) ≤ constrain r SOIL_WET SOIL_DRY := (constrain_mem r).1
  have h2 : constrain r SOIL_WET SOIL_DRY ≤ (3500 : Int) := (constrain_mem r).2
  generalize constrain r SOIL_WET SOIL_DRY = c at h1 h2 ⊢
  have h3 : SOIL_DRY = 3500 := rfl
  rw [abs_lt, h3]
  constructor <;> omega

/-- On the calibration range the `map` call is `(3500 - c) / 20` rounded down. -/
theorem map_calibrated (c : Int) (h1 : 1500 ≤ c) (h2 : c ≤ 3500) :
    map c SOIL_DRY SOIL_WET 0 100 = (3500 - c) / 20 := by
  unfold map SOIL_DRY SOIL_WET
  simp only [show (1500 : Int) - 3500 ≠ 0 by decide, if_false]
  have hA : (c - 3500) * (100 - 0) = -((3500 - c) * 100) := by ring
  have hB : (1500 : Int) - 3500 = -2000 := by norm_num
  rw [hA, hB, Int.neg_tdiv, Int.tdiv_neg, neg_neg, Int.tdiv_eq_ediv (by omega) (by omega)]
  omega

/-- The value `readSoilMoisture` returns is the integer `(3500 - c) / 20` (rounded
down), `c` the constrained raw value; the `float` holds it exactly. -/
theorem readSoilMoisture_eq (r : Int) :
    readSoilMoisture r = (((3500 - constrain r SOIL_WET SOIL_DRY) / 20 : ℤ) : ℚ) := by
  have h1 : (1500 : Int) ≤ constrain r SOIL_WET SOIL_DRY := (constrain_mem r).1
  have h2 : constrain r SOIL_WET SOIL_DRY ≤ (3500 : Int) := (constrain_mem r).2
  unfold readSoilMoisture toFloat
  simp only []
  rw [map_calibrated _ h1 h2]
  apply roundTo_intCast
  rw [abs_lt]
  constructor <;> omega

theorem exactPercent_eq (r : Int) :
    exactPercent r = ((3500 - constrain r SOIL_WET SOIL_DRY : ℤ) : ℚ) / ((20 : ℕ) : ℚ) := by
  unfold exactPercent SOIL_DRY SOIL_WET
  push_cast
  ring

/-- C1: `readSoilMoisture` returns 100 for every raw value at or below `SOIL_WET`,
0 for every raw value at or above `SOIL_DRY`, and 50 at the midpoint 2500. -/
theorem readSoilMoisture_thresholds :
    (∀ r : Int, r ≤ SOIL_WET → readSoilMoisture r = 100) ∧
    (∀ r : Int, SOIL_DRY ≤ r → readSoilMoisture r = 0) ∧
    (SOIL_WET + SOIL_DRY) / 2 = 2500 ∧ readSoilMoisture 2500 = 50 := by
  refine ⟨?_, ?_, by decide, ?_⟩
  · intro r hr
    have hc : constrain r SOIL_WET SOIL_DRY = 1500 := by
      unfold constrain SOIL_WET SOIL_DRY at *
      split_ifs <;> omega
    rw [readSoilMoisture_eq, hc]
    norm_num
  · intro r hr
    have hc : constrain r SOIL_WET SOIL_DRY = 3500 := by
      unfold constrain SOIL_WET SOIL_DRY at *
      split_ifs <;> omega
    rw [readSoilMoisture_eq, hc]
    norm_num
  · rw [readSoilMoisture_eq]
    unfold constrain SOIL_WET SOIL_DRY
    norm_num

theorem readSoilMoisture_thresholds_witness :
    readSoilMoisture 1200 = 100 ∧ readSoilMoisture 1500 = 100 ∧
    readSoilMoisture 3500 = 0 ∧ readSoilMoisture 4095 = 0 :=
  ⟨readSoilMoisture_thresholds.1 1200 (by decide),
    readSoilMoisture_thresholds.1 1500 (by decide),
    readSoilMoisture_thresholds.2.1 3500 (by decide),
    readSoilMoisture_thresholds.2.1 4095 (by decide)⟩

/-- C2: `readSoilMoisture` is non-increasing in the raw value, inside and outside the
calibration thresholds. -/
theorem readSoilMoisture_antitone (r1 r2 : Int) (h : r1 ≤ r2) :
    readSoilMoisture r2 ≤ readSoilMoisture r1 := by
  rw [readSoilMoisture_eq, readSoilMoisture_eq]
  have hc : constrain r1 SOIL_WET SOIL_DRY ≤ constrain r2 SOIL_WET SOIL_DRY := by
    unfold constrain SOIL_WET SOIL_DRY
    split_ifs <;> omega
  exact_mod_cast (by omega :
    (3500 - constrain r2 SOIL_WET SOIL_DRY) / 20 ≤ (3500 - constrain r1 SOIL_WET SOIL_DRY) / 20)

theorem readSoilMoisture_antitone_witness :
    (1999 : Int) ≤ 2000 ∧ readSoilMoisture 2000 ≤ readSoilMoisture 1999 :=
  ⟨by decide, readSoilMoisture_antitone 1999 2000 (by decide)⟩

/-- C3 fails as stated: at raw value 3490 the exact linear map gives 1/2 percent,
`readSoilMoisture` returns 0. -/
theorem readSoilMoisture_not_exact :
    readSoilMoisture 3490 = 0 ∧ exactPercent 3490 = 1 / 2 ∧
    readSoilMoisture 3490 ≠ exactPercent 3490 := by
  have h1 : readSoilMoisture 3490 = 0 := by
    rw [readSoilMoisture_eq]; unfold constrain SOIL_WET SOIL_DRY; norm_num
  have h2 : exactPercent 3490 = 1 / 2 := by
    unfold exactPercent constrain SOIL_WET SOIL_DRY; norm_num
  refine ⟨h1, h2, ?_⟩
  rw [h1, h2]; norm_num

/-- C3 amended: `readSoilMoisture` returns the exact linear map
`100 * (SOIL_DRY - c) / (SOIL_DRY - SOIL_WET)` of the clamped raw value rounded down to
a whole percent; it is at most the exact value and less than one percent below it, and
equals it exactly when `SOIL_DRY - c` is a multiple of 20. -/
theorem readSoilMoisture_floor_exact (r : Int) :
    readSoilMoisture r = ((⌊exactPercent r⌋ : ℤ) : ℚ) ∧
    readSoilMoisture r ≤ exactPercent r ∧ exactPercent r - 1 < readSoilMoisture r ∧
    ((20 : Int) ∣ SOIL_DRY - constrain r SOIL_WET SOIL_DRY →
      readSoilMoisture r = exactPercent r) := by
  have hfl : readSoilMoisture r = ((⌊exactPercent r⌋ : ℤ) : ℚ) := by
    rw [readSoilMoisture_eq, exactPercent_eq, Rat.floor_intCast_div_natCast]
    norm_num
  refine ⟨hfl, ?_, ?_, ?_⟩
  · rw [hfl]; exact Int.floor_le _
  · rw [hfl]; linarith [Int.lt_floor_add_one (exactPercent r)]
  · rintro ⟨k, hk⟩
    rw [readSoilMoisture_eq, exactPercent_eq]
    have hk2 : 3500 - constrain r SOIL_WET SOIL_DRY = 20 * k := hk
    rw [hk2]
    simp

theorem readSoilMoisture_floor_exact_witness :
    (20 : Int) ∣ SOIL_DRY - constrain 2500 SOIL_WET SOIL_DRY ∧
    readSoilMoisture 2500 = exactPercent 2500 :=
  ⟨by decide, (readSoilMoisture_floor_exact 2500).2.2.2 (by decide)⟩

theorem sessionAfterLink_append_quiet (tr es : Trace) (h : SessionAfterLink tr)
    (hq : ∀ e ∈ es, isSessionAction e = false) : SessionAfterLink (tr ++ es) := by
  intro pre e post heq he
  rcases List.append_eq_append_iff.mp heq with ⟨a, rfl, h2⟩ | ⟨c, h1, h2⟩
  · have hmem : e ∈ es := by rw [h2]; simp
    rw [hq e hmem] at he
    cases he
  · cases c with
    | nil =>
      have hmem : e ∈ es := by
        have : e :: post = es := by simpa using h2
        rw [← this]; simp
      rw [hq e hmem] at he
      cases he
    | cons x c =>
      have hx : e = x ∧ post = c ++ es := by simpa using h2
      obtain ⟨rfl, -⟩ := hx
      exact h pre e c h1 he

theorem sessionAfterLink_append_seen (tr es : Trace) (h : SessionAfterLink tr)
    (hs : Event.wifiStatus true ∈ tr) : SessionAfterLink (tr ++ es) := by
  intro pre e post heq he
  rcases List.append_eq_append_iff.mp heq with ⟨a, rfl, -⟩ | ⟨c, h1, h2⟩
  · exact List.mem_append_left _ hs
  · cases c with
    | nil =>
      have : pre = tr := by simpa using h1.symm
      rw [this]; exact hs
    | cons x c =>
      have hx : e = x ∧ post = c ++ es := by simpa using h2
      obtain ⟨rfl, -⟩ := hx
      exact h pre e c h1 he

theorem sessionAfterLink_of_linkLayer (tr : Trace) (h : ∀ e ∈ tr, isLinkLayer e = true) :
    SessionAfterLink tr := by
  intro pre e post heq he
  have hmem : e ∈ tr := by rw [heq]; simp
  have := h e hmem
  cases e <;> simp [isLinkLayer, isSessionAction] at this he

theorem repeatEvents_succ_append (k : Nat) (block : List Event) :
    repeatEvents (k + 1) block = repeatEvents k block ++ block := by
  induction k with
  | zero => simp [repeatEvents]
  | succ k ih =>
    conv_lhs => rw [repeatEvents, ih]
    simp [repeatEvents]

theorem mem_repeatEvents {k : Nat} {block : List Event} {e : Event}
    (h : e ∈ repeatEvents k block) : e ∈ block := by
  induction k with
  | zero => simp [repeatEvents] at h
  | succ k ih =>
    simp only [repeatEvents, List.mem_append] at h
    rcases h with h | h
    · exact h
    · exact ih h

theorem countP_repeatEvents (p : Event → Bool) (k : Nat) (block : List Event) :
    (repeatEvents k block).countP p = k * block.countP p := by
  induction k with
  | zero => simp [repeatEvents]
  | succ k ih => simp [repeatEvents, List.countP_append, ih]; ring

theorem totalDelay_append (a b : Trace) : totalDelay (a ++ b) = totalDelay a + totalDelay b := by
  simp [totalDelay]

theorem totalDelay_repeatEvents (k : Nat) (block : List Event) :
    totalDelay (repeatEvents k block) = k * totalDelay block := by
  induction k with
  | zero => simp [repeatEvents, totalDelay]
  | succ k ih => simp [repeatEvents, totalDelay_append, ih]; ring

/-- The polling loop: `k` rounds "not connected, wait 500 ms", then the observation
that ended the loop; the loop ends on "connected" or when the budget is used up. -/
theorem connectWiFiLoop_spec (env : Env) (n : Nat) :
    ∀ (attempts : Nat) (tr : Trace), attempts + n = 30 →
      ∃ (k : Nat) (b : Bool), k ≤ n ∧ (b = true ∨ k = n) ∧
        ((∀ t, env.wifiStatus t = false) → b = false) ∧
        connectWiFiLoop env attempts tr =
          tr ++ repeatEvents k [Event.wifiStatus false, Event.delay 500]
            ++ [Event.wifiStatus b] := by
  induction n with
  | zero =>
    intro attempts tr h
    have ha : attempts = 30 := by omega
    subst ha
    refine ⟨0, env.wifiStatus tr, le_refl _, Or.inr rfl, fun hn => hn tr, ?_⟩
    rw [connectWiFiLoop]
    simp [repeatEvents]
  | succ n ih =>
    intro attempts tr h
    rw [connectWiFiLoop]
    cases hs : env.wifiStatus tr with
    | true =>
      refine ⟨0, true, Nat.zero_le _, Or.inl rfl, fun hn => ?_, ?_⟩
      · rw [hn tr] at hs; cases hs
      · simp [repeatEvents]
    | false =>
      have hlt : attempts < 30 := by omega
      obtain ⟨k, b, hk, hb, hnever, heq⟩ :=
        ih (attempts + 1) (tr ++ [Event.wifiStatus false] ++ [Event.delay 500]) (by omega)
      refine ⟨k + 1, b, by omega, ?_, hnever, ?_⟩
      · rcases hb with hb | hb
        · exact Or.inl hb
        · exact Or.inr (by omega)
      · simp only [Bool.not_false, Bool.true_and, decide_eq_true_eq, hlt, if_true]
        rw [heq]
        simp [repeatEvents]

theorem count_repeatEvents (e : Event) (k : Nat) (block : List Event) :
    (repeatEvents k block).count e = k * block.count e := by
  simp only [List.count, countP_repeatEvents]

/-- Shape of the trace of `connectWiFi`. -/
theorem connectWiFi_spec (env : Env) (tr : Trace) :
    ∃ (k : Nat) (b s : Bool), k ≤ 30 ∧ (b = true ∨ k = 30) ∧
      ((∀ t, env.wifiStatus t = false) → b = false ∧ s = false) ∧
      connectWiFi env tr =
        tr ++ ([Event.wifiBegin] ++ repeatEvents k [Event.wifiStatus false, Event.delay 500]
          ++ [Event.wifiStatus b] ++ [Event.wifiStatus s]
          ++ (if s then [Event.wifiLocalIP] else [])) := by
  obtain ⟨k, b, hk, hb, hnever, heq⟩ :=
    connectWiFiLoop_spec env 30 0 (tr ++ [Event.wifiBegin]) (by omega)
  refine ⟨k, b, env.wifiStatus (connectWiFiLoop env 0 (tr ++ [Event.wifiBegin])), hk, hb,
    fun hn => ⟨hnever hn, hn _⟩, ?_⟩
  unfold connectWiFi
  simp only []
  split_ifs with hs
  · rw [heq]; simp
  · rw [heq]; simp

theorem readSensors_linkLayer (env : Env) (tr : Trace)
    (h : ∀ e ∈ tr, isLinkLayer e = true) :
    ∀ e ∈ (readSensors env tr).2, isLinkLayer e = true := by
  intro e he
  simp only [readSensors, List.mem_append, List.mem_singleton] at he
  rcases he with ((((he | rfl) | rfl) | rfl) | rfl) | rfl
  · exact h e he
  all_goals rfl

theorem repeatEvents_linkLayer (k : Nat) (block : List Event)
    (h : ∀ e ∈ block, isLinkLayer e = true) :
    ∀ e ∈ repeatEvents k block, isLinkLayer e = true :=
  fun e he => h e (mem_repeatEvents he)

theorem connectWiFi_linkLayer (env : Env) (tr : Trace)
    (h : ∀ e ∈ tr, isLinkLayer e = true) :
    ∀ e ∈ connectWiFi env tr, isLinkLayer e = true := by
  obtain ⟨k, b, s, -, -, -, hcw⟩ := connectWiFi_spec env tr
  rw [hcw]
  intro e he
  simp only [List.mem_append, List.mem_singleton] at he
  rcases he with he | (((rfl | he) | rfl) | rfl) | he
  · exact h e he
  · rfl
  · exact repeatEvents_linkLayer k _ (by simp [isLinkLayer]) e he
  · rfl
  · rfl
  · cases s
    · simp at he
    · simp at he
      subst he
      rfl

/-- Before the link check of `setup` only the sensor and link layers are touched. -/
theorem linkPhase_linkLayer (env : Env) : ∀ e ∈ linkPhase env, isLinkLayer e = true := by
  unfold linkPhase
  apply connectWiFi_linkLayer
  apply readSensors_linkLayer
  simp [boot, isLinkLayer]

theorem connectMQTTLoop_extends (env : Env) (fuel : Nat) :
    ∀ (attempts : Nat) (tr : Trace), tr <+: (connectMQTTLoop env fuel attempts tr).1 := by
  induction fuel with
  | zero => intro a tr; simp [connectMQTTLoop]
  | succ fuel ih =>
    intro a tr
    simp only [connectMQTTLoop]
    split_ifs with h1 h2
    · exact (List.prefix_append _ _).trans ((List.prefix_append _ _).trans (ih _ _))
    · exact (List.prefix_append _ _).trans ((List.prefix_append _ _).trans
        ((List.prefix_append _ _).trans (ih _ _)))
    · exact List.prefix_append _ _

theorem sendTelemetry_extends (env : Env) (a b c d : ℚ) (tr : Trace) :
    tr <+: sendTelemetry env a b c d tr := by
  unfold sendTelemetry
  simp only []
  split_ifs
  · exact List.prefix_append _ _
  · exact (List.prefix_append _ _).trans ((List.prefix_append _ _).trans
      ((List.prefix_append _ _).trans (List.prefix_append _ _)))

/-- The two ways through `setup`: link check failed (power-down at once), or link
check passed (everything else comes after the observation "connected"). -/
theorem setup_cases (env : Env) (fuel : Nat) :
    (env.wifiStatus (linkPhase env) = false ∧
      setup env fuel = (linkPhase env ++ [Event.wifiStatus false] ++ powerDown, true)) ∨
    (env.wifiStatus (linkPhase env) = true ∧
      ∃ es, (setup env fuel).1 = linkPhase env ++ [Event.wifiStatus true] ++ es) := by
  cases hs : env.wifiStatus (linkPhase env) with
  | false =>
    left
    refine ⟨rfl, ?_⟩
    unfold setup
    simp [hs, enterDeepSleep]
  | true =>
    right
    refine ⟨rfl, ?_⟩
    unfold setup
    simp only [hs, if_true]
    have h1 := connectMQTTLoop_extends env fuel 0
      (linkPhase env ++ [Event.wifiStatus true] ++ [Event.mqttSetServer])
    unfold connectMQTT
    rcases hc : connectMQTTLoop env fuel 0
      (linkPhase env ++ [Event.wifiStatus true] ++ [Event.mqttSetServer]) with ⟨tr2, b⟩
    rw [hc] at h1
    simp only at h1
    have h0 : linkPhase env ++ [Event.wifiStatus true] <+: tr2 :=
      (List.prefix_append _ _).trans h1
    cases b with
    | false =>
      simp only
      obtain ⟨es, hes⟩ := h0
      exact ⟨es, hes.symm⟩
    | true =>
      simp only
      have h2 := sendTelemetry_extends env (readSensors env boot).1.soilMoisture
        (readSensors env boot).1.soilTemp (readSensors env boot).1.airTemp
        (readSensors env boot).1.airHumidity tr2
      obtain ⟨es, hes⟩ := h0.trans (h2.trans ((List.prefix_append _
        [Event.mqttLoop, Event.delay 1000, Event.mqttDisconnect]).trans
        (List.prefix_append _ powerDown)))
      exact ⟨es, hes.symm⟩

theorem not_sessionAction_of_linkLayer {e : Event} (h : isLinkLayer e = true) :
    isSessionAction e = false := by
  cases e <;> simp [isLinkLayer, isSessionAction] at h ⊢

theorem powerDown_quiet : ∀ e ∈ powerDown, isSessionAction e = false := by
  intro e he
  simp only [powerDown, List.mem_cons, List.mem_singleton] at he
  rcases he with rfl | rfl | rfl | rfl | he
  · rfl
  · rfl
  · rfl
  · rfl
  · simp at he

theorem linkPhase_countP_connect (env : Env) :
    (linkPhase env).countP isConnectAttempt = 0 := by
  rw [List.countP_eq_zero]
  intro e he
  have := linkPhase_linkLayer env e he
  cases e <;> simp [isLinkLayer, isConnectAttempt] at this ⊢

/-- With a session that accepts every connect and never reports connected, each round
of the retry loop issues one more connect and leaves `attempts` unchanged. -/
theorem connectMQTTLoop_flapping (env : Env) (hacc : ∀ t, env.mqttConnect t = true)
    (hdown : ∀ t, env.mqttConnected t = false) (fuel : Nat) :
    ∀ (attempts : Nat) (tr : Trace), attempts < 5 →
      connectMQTTLoop env fuel attempts tr =
        (tr ++ repeatEvents fuel [Event.mqttConnected false, Event.mqttConnect true], false) := by
  induction fuel with
  | zero => intro a tr _; simp [connectMQTTLoop, repeatEvents]
  | succ fuel ih =>
    intro a tr ha
    simp only [connectMQTTLoop, hdown, hacc, Bool.not_false, Bool.true_and, decide_eq_true_eq,
      ha, if_true]
    rw [ih a _ ha]
    simp [repeatEvents]

theorem linkPhase_no_connect (env : Env) (b : Bool) :
    Event.mqttConnect b ∉ linkPhase env ++ [Event.wifiStatus true] ++ [Event.mqttSetServer] := by
  intro h
  simp only [List.mem_append, List.mem_singleton] at h
  rcases h with (h | h) | h
  · have := linkPhase_linkLayer env _ h
    simp [isLinkLayer] at this
  · cases h
  · cases h

theorem linkPhase_no_publish (env : Env) : ∀ e ∈ linkPhase env, isPublish e = false := by
  intro e he
  have := linkPhase_linkLayer env e he
  cases e <;> simp [isLinkLayer, isPublish] at this ⊢

/-- With a broker that rejects the first `j` connects and accepts from then on, and a
session reported connected exactly once a connect was accepted, the retry loop makes
the remaining rejected attempts, one accepted attempt, and is left connected. -/
theorem connectMQTTLoop_accepted (env : Env) (j : Nat)
    (hacc : ∀ t, env.mqttConnect t = decide (j ≤ t.countP isConnectAttempt))
    (hproto : ∀ t, env.mqttConnected t = decide (Event.mqttConnect true ∈ t)) (m : Nat) :
    ∀ (attempts fuel : Nat) (tr : Trace), tr.countP isConnectAttempt + m = j →
      attempts + m ≤ 4 → m + 2 ≤ fuel → Event.mqttConnect true ∉ tr →
      connectMQTTLoop env fuel attempts tr =
        (tr ++ repeatEvents m [Event.mqttConnected false, Event.mqttConnect false,
            Event.mqttState, Event.delay 2000]
          ++ [Event.mqttConnected false, Event.mqttConnect true, Event.mqttConnected true],
          true) := by
  induction m with
  | zero =>
    intro a fuel tr hc ha hf hno
    obtain ⟨f, rfl⟩ : ∃ f, fuel = f + 2 := ⟨fuel - 2, by omega⟩
    have ha5 : a < 5 := by omega
    have hj : j ≤ tr.countP isConnectAttempt := by omega
    simp [connectMQTTLoop, hproto, hacc, hno, ha5, hj, isConnectAttempt, repeatEvents]
  | succ m ih =>
    intro a fuel tr hc ha hf hno
    obtain ⟨f, rfl⟩ : ∃ f, fuel = f + 1 := ⟨fuel - 1, by omega⟩
    have ha5 : a < 5 := by omega
    have hj : ¬ j ≤ tr.countP isConnectAttempt := by omega
    have hrej : env.mqttConnect (tr ++ [Event.mqttConnected false]) = false := by
      rw [hacc]; simp [isConnectAttempt, hj]
    have hdown : env.mqttConnected tr = false := by
      rw [hproto]; simp [hno]
    simp only [connectMQTTLoop, hdown, hrej, Bool.not_false, Bool.true_and,
      decide_eq_true_eq, ha5, if_true, Bool.false_eq_true, if_false]
    rw [ih (a + 1) f _ (by simp [isConnectAttempt]; omega) (by omega) (by omega)
      (by simpa using hno)]
    simp [repeatEvents]

/-- The document `sendTelemetry` builds from four readings. -/
theorem telemetry_doc (a b c d : ℚ) (raw rssi : Int) :
    JsonDocument.set (JsonDocument.set (JsonDocument.set (JsonDocument.set
      (JsonDocument.set (JsonDocument.set [] "soil_moisture" (JsonValue.float a))
        "soil_temp" (JsonValue.float b)) "air_temp" (JsonValue.float c))
      "air_humidity" (JsonValue.float d)) "battery_voltage"
      (JsonValue.float (batteryVoltage raw))) "rssi" (JsonValue.int rssi)
    = [("soil_moisture", JsonValue.float a), ("soil_temp", JsonValue.float b),
        ("air_temp", JsonValue.float c), ("air_humidity", JsonValue.float d),
        ("battery_voltage", JsonValue.float (batteryVoltage raw)),
        ("rssi", JsonValue.int rssi)] := by
  simp [JsonDocument.set, JSON_CAPACITY]

/-- What `sendTelemetry` does when the session is reported connected. -/
theorem sendTelemetry_connected (env : Env) (a b c d : ℚ) (tr : Trace)
    (h : env.mqttConnected tr = true) :
    ∃ raw rssi ok, sendTelemetry env a b c d tr =
      tr ++ [Event.mqttConnected true] ++ [Event.analogRead 35 raw] ++ [Event.wifiRSSI rssi]
        ++ [Event.mqttPublish "v1/devices/me/telemetry"
          [("soil_moisture", JsonValue.float a), ("soil_temp", JsonValue.float b),
            ("air_temp", JsonValue.float c), ("air_humidity", JsonValue.float d),
            ("battery_voltage", JsonValue.float (batteryVoltage raw)),
            ("rssi", JsonValue.int rssi)] ok] := by
  simp only [sendTelemetry, h, Bool.not_true, Bool.false_eq_true, if_false, telemetry_doc]
  exact ⟨_, _, _, rfl⟩

theorem connectMQTTLoop_no_sleep (env : Env) (fuel : Nat) :
    ∀ (attempts : Nat) (tr : Trace), Event.deepSleepStart ∉ tr →
      Event.deepSleepStart ∉ (connectMQTTLoop env fuel attempts tr).1 := by
  induction fuel with
  | zero => intro a tr h; simpa [connectMQTTLoop] using h
  | succ fuel ih =>
    intro a tr h
    simp only [connectMQTTLoop]
    split_ifs with h1 h2
    · exact ih _ _ (by simpa using h)
    · exact ih _ _ (by simpa using h)
    · simpa using h

theorem sendTelemetry_no_sleep (env : Env) (a b c d : ℚ) (tr : Trace)
    (h : Event.deepSleepStart ∉ tr) :
    Event.deepSleepStart ∉ sendTelemetry env a b c d tr := by
  unfold sendTelemetry
  simp only []
  split_ifs
  · simpa using h
  · simpa using h

/-- A cycle that runs to its end ends with the calls of `enterDeepSleep`, and
`esp_deep_sleep_start` is called there and nowhere before. -/
theorem setup_completed_powers_down (env : Env) (fuel : Nat)
    (hdone : (setup env fuel).2 = true) :
    ∃ pre, (setup env fuel).1 = pre ++ powerDown ∧ Event.deepSleepStart ∉ pre := by
  have hlp : Event.deepSleepStart ∉ linkPhase env := by
    intro h
    have := linkPhase_linkLayer env _ h
    simp [isLinkLayer] at this
  unfold setup at hdone ⊢
  cases hs : env.wifiStatus (linkPhase env) with
  | false =>
    simp only [hs, Bool.false_eq_true, if_false, enterDeepSleep]
    exact ⟨_, rfl, by simpa using hlp⟩
  | true =>
    simp only [hs, if_true] at hdone ⊢
    have hns := connectMQTTLoop_no_sleep env fuel 0
      (linkPhase env ++ [Event.wifiStatus true] ++ [Event.mqttSetServer]) (by simpa using hlp)
    unfold connectMQTT at hdone ⊢
    rcases hc : connectMQTTLoop env fuel 0
      (linkPhase env ++ [Event.wifiStatus true] ++ [Event.mqttSetServer]) with ⟨tr2, b⟩
    rw [hc] at hdone hns
    cases b with
    | false => simp at hdone
    | true =>
      simp only [enterDeepSleep]
      refine ⟨_, rfl, ?_⟩
      have := sendTelemetry_no_sleep env (readSensors env boot).1.soilMoisture
        (readSensors env boot).1.soilTemp (readSensors env boot).1.airTemp
        (readSensors env boot).1.airHumidity tr2 hns
      simpa using this

/-- When an accepted connect makes `mqtt.connected()` answer true from then on, the
retry loop is left after at most `5 - attempts` rejected connects, one accepted connect
and the final test. -/
theorem connectMQTTLoop_completes (env : Env)
    (hup : ∀ t, Event.mqttConnect true ∈ t → env.mqttConnected t = true) (n : Nat) :
    ∀ (attempts fuel : Nat) (tr : Trace), attempts + n = 5 → n + 2 ≤ fuel →
      (connectMQTTLoop env fuel attempts tr).2 = true := by
  induction n with
  | zero =>
    intro a fuel tr ha hf
    obtain ⟨f, rfl⟩ : ∃ f, fuel = f + 1 := ⟨fuel - 1, by omega⟩
    have ha5 : ¬ a < 5 := by omega
    simp [connectMQTTLoop, ha5]
  | succ n ih =>
    intro a fuel tr ha hf
    obtain ⟨f, rfl⟩ : ∃ f, fuel = f + 2 := ⟨fuel - 2, by omega⟩
    rw [connectMQTTLoop]
    simp only []
    split_ifs with h1 h2
    · rw [connectMQTTLoop]
      have hc := hup (tr ++ [Event.mqttConnected (env.mqttConnected tr)]
        ++ [Event.mqttConnect (env.mqttConnect
          (tr ++ [Event.mqttConnected (env.mqttConnected tr)]))]) (by simp [h2])
      simp only [List.append_assoc, List.cons_append, List.nil_append] at hc
      simp [hc]
    · exact ih (a + 1) (f + 1) _ (by omega) (by omega)
    · rfl

/-! ## Claims on the cycle -/

/-- C7: `connectWiFi` calls `WiFi.begin` exactly once and, whatever the link answers,
waits at most 30 times, 500 ms each time (at most 15000 ms); when the status never
reports connected it waits exactly 30 times and every status it observed, the last
one included, is "not connected". -/
theorem connectWiFi_bounded (env : Env) (tr : Trace) :
    ∃ es : List Event, connectWiFi env tr = tr ++ es ∧
      es.count Event.wifiBegin = 1 ∧
      (∀ ms, Event.delay ms ∈ es → ms = 500) ∧
      es.count (Event.delay 500) ≤ 30 ∧
      totalDelay es ≤ 15000 ∧
      ((∀ t, env.wifiStatus t = false) →
        es.count (Event.delay 500) = 30 ∧ totalDelay es = 15000 ∧
        (∀ b, Event.wifiStatus b ∈ es → b = false) ∧
        es.getLast? = some (Event.wifiStatus false)) := by
  obtain ⟨k, b, s, hk, hb, hnever, heq⟩ := connectWiFi_spec env tr
  refine ⟨_, heq, ?_, ?_, ?_, ?_, ?_⟩
  · cases s <;> simp [List.count_append, count_repeatEvents]
  · intro ms hms
    have hrep : Event.delay ms ∈ repeatEvents k [Event.wifiStatus false, Event.delay 500] := by
      cases s <;> simpa using hms
    simpa using mem_repeatEvents hrep
  · cases s <;> simp [List.count_append, count_repeatEvents] <;> omega
  · have hblk : totalDelay [Event.wifiStatus false, Event.delay 500] = 500 := by
      simp [totalDelay, delayOf]
    simp only [totalDelay_append, totalDelay_repeatEvents, hblk]
    cases s <;> simp [totalDelay, delayOf] <;> omega
  · intro hn
    obtain ⟨rfl, rfl⟩ := hnever hn
    have hk30 : k = 30 := by
      rcases hb with hb | hb
      · cases hb
      · exact hb
    subst hk30
    refine ⟨?_, ?_, ?_, ?_⟩
    · simp [List.count_append, count_repeatEvents]
    · have hblk : totalDelay [Event.wifiStatus false, Event.delay 500] = 500 := by
        simp [totalDelay, delayOf]
      simp only [totalDelay_append, totalDelay_repeatEvents, hblk]
      simp [totalDelay, delayOf]
    · intro b hb
      cases b with
      | false => rfl
      | true =>
        have hrep : Event.wifiStatus true
            ∈ repeatEvents 30 [Event.wifiStatus false, Event.delay 500] := by
          simpa using hb
        simpa using mem_repeatEvents hrep
    · have hshape : [Event.wifiBegin]
          ++ repeatEvents 30 [Event.wifiStatus false, Event.delay 500]
          ++ [Event.wifiStatus false] ++ [Event.wifiStatus false]
          ++ (if false = true then [Event.wifiLocalIP] else [])
          = ([Event.wifiBegin] ++ repeatEvents 30 [Event.wifiStatus false, Event.delay 500]
              ++ [Event.wifiStatus false]) ++ [Event.wifiStatus false] := by
        simp
      rw [hshape, List.getLast?_append]
      simp

theorem connectWiFi_bounded_witness :
    ∃ es : List Event, connectWiFi (constEnv false false false 20) [] = [] ++ es ∧
      es.count (Event.delay 500) = 30 ∧ totalDelay es = 15000 := by
  obtain ⟨es, h1, -, -, -, -, h2⟩ := connectWiFi_bounded (constEnv false false false 20) []
  exact ⟨es, h1, (h2 (fun _ => rfl)).1, (h2 (fun _ => rfl)).2.1⟩

/-- C5: in every cycle, whatever the collaborators answer and however far the cycle
got, a session connect attempt or a publish is preceded by an observation "link
connected"; and when no link status query of the cycle reported connected, the cycle
runs to its end with no session connect attempt and no publish, and powers down. -/
theorem session_only_after_link (env : Env) (fuel : Nat) :
    (∀ pre e post, (setup env fuel).1 = pre ++ e :: post → isSessionAction e = true →
      Event.wifiStatus true ∈ pre) ∧
    (Event.wifiStatus true ∉ (setup env fuel).1 →
      (setup env fuel).2 = true ∧
      (∀ e ∈ (setup env fuel).1, isSessionAction e = false) ∧
      ∃ pre, (setup env fuel).1 = pre ++ powerDown) := by
  have hlink := sessionAfterLink_of_linkLayer _ (linkPhase_linkLayer env)
  rcases setup_cases env fuel with ⟨hs, heq⟩ | ⟨hs, es, heq⟩
  · constructor
    · rw [heq]
      exact sessionAfterLink_append_quiet _ _
        (sessionAfterLink_append_quiet _ _ hlink (by simp [isSessionAction])) powerDown_quiet
    · intro _
      rw [heq]
      refine ⟨rfl, ?_, ⟨_, rfl⟩⟩
      intro e he
      simp only [List.mem_append, List.mem_singleton] at he
      rcases he with (he | rfl) | he
      · exact not_sessionAction_of_linkLayer (linkPhase_linkLayer env e he)
      · rfl
      · exact powerDown_quiet e he
  · constructor
    · rw [heq]
      exact sessionAfterLink_append_seen _ _
        (sessionAfterLink_append_quiet _ _ hlink (by simp [isSessionAction])) (by simp)
    · intro hno
      exfalso
      apply hno
      rw [heq]
      simp

theorem session_only_after_link_witness :
    isSessionAction (Event.mqttConnect false) = true ∧
    Event.wifiStatus true ∈ linkPhase (constEnv true false false 20)
      ++ [Event.wifiStatus true, Event.mqttSetServer, Event.mqttConnected false] :=
  ⟨rfl, (session_only_after_link (constEnv true false false 20) 1).1
    (linkPhase (constEnv true false false 20)
      ++ [Event.wifiStatus true, Event.mqttSetServer, Event.mqttConnected false])
    (Event.mqttConnect false) [Event.mqttState, Event.delay 2000]
    (by simp [setup, connectMQTT, connectMQTTLoop, constEnv]) rfl⟩

/-- C6 fails on this input: link up, every session connect accepted, `mqtt.connected()`
never true.  After any number `fuel` of rounds the cycle is still inside the loop of
`connectMQTT`, has issued one connect per round, and has not reached the power-down. -/
theorem setup_stuck_when_session_flaps (fuel : Nat) :
    (setup (constEnv true false true 20) fuel).2 = false ∧
    Event.deepSleepStart ∉ (setup (constEnv true false true 20) fuel).1 ∧
    (setup (constEnv true false true 20) fuel).1.countP isConnectAttempt = fuel := by
  have hloop := connectMQTTLoop_flapping (constEnv true false true 20) (fun _ => rfl)
    (fun _ => rfl) fuel 0
    (linkPhase (constEnv true false true 20) ++ [Event.wifiStatus true]
      ++ [Event.mqttSetServer]) (by decide)
  have hs : (constEnv true false true 20).wifiStatus
      (linkPhase (constEnv true false true 20)) = true := rfl
  have heq : setup (constEnv true false true 20) fuel =
      (linkPhase (constEnv true false true 20) ++ [Event.wifiStatus true]
        ++ [Event.mqttSetServer]
        ++ repeatEvents fuel [Event.mqttConnected false, Event.mqttConnect true], false) := by
    unfold setup connectMQTT
    simp only [hs, if_true]
    rw [hloop]
  rw [heq]
  refine ⟨rfl, ?_, ?_⟩
  · intro hmem
    simp only [List.mem_append, List.mem_singleton] at hmem
    rcases hmem with ((h | h) | h) | h
    · have := linkPhase_linkLayer _ _ h
      simp [isLinkLayer] at this
    · cases h
    · cases h
    · have := mem_repeatEvents h
      simp at this
  · simp only [List.countP_append, linkPhase_countP_connect, countP_repeatEvents]
    simp [isConnectAttempt]

/-- Termination under a well-behaved session layer: whatever the sensors and the link do, if the session
layer keeps reporting connected once it accepted a connect, the cycle runs to its end
(fuel 7 suffices) and its last calls are those of `enterDeepSleep`, with
`esp_deep_sleep_start` called exactly there. -/
theorem setup_powers_down_of_stable_session (env : Env) (fuel : Nat) (hfuel : 7 ≤ fuel)
    (hup : ∀ t, Event.mqttConnect true ∈ t → env.mqttConnected t = true) :
    (setup env fuel).2 = true ∧
    ∃ pre, (setup env fuel).1 = pre ++ powerDown ∧ Event.deepSleepStart ∉ pre := by
  have hdone : (setup env fuel).2 = true := by
    unfold setup
    cases hs : env.wifiStatus (linkPhase env) with
    | false => simp [hs]
    | true =>
      simp only [hs, if_true]
      have hloop := connectMQTTLoop_completes env hup 5 0 fuel
        (linkPhase env ++ [Event.wifiStatus true] ++ [Event.mqttSetServer])
        (by omega) (by omega)
      unfold connectMQTT
      rcases hc : connectMQTTLoop env fuel 0
        (linkPhase env ++ [Event.wifiStatus true] ++ [Event.mqttSetServer]) with ⟨tr2, b⟩
      rw [hc] at hloop
      simp only at hloop
      subst hloop
      simp
  exact ⟨hdone, setup_completed_powers_down env fuel hdone⟩

theorem setup_powers_down_of_stable_session_witness :
    (setup (goodEnv 20) 7).2 = true :=
  (setup_powers_down_of_stable_session (goodEnv 20) 7 (by decide)
    (fun t h => by simp [goodEnv, h])).1

/-- C9: when the probe reports "disconnected", the link check passes and the session
is established (the broker accepts after `j ≤ 4` rejected connects; connected is
reported exactly once a connect was accepted), the cycle runs to its end and publishes
exactly one payload; its `soil_temp` is the sentinel -999 and its `soil_moisture`,
`air_temp`, `air_humidity` are what their readers returned. -/
theorem fault_sentinel_published (env : Env) (j fuel : Nat) (hj : j ≤ 4)
    (hfuel : j + 2 ≤ fuel)
    (hprobe : ∀ t, env.getTempCByIndex t = DEVICE_DISCONNECTED_C)
    (hlink : env.wifiStatus (linkPhase env) = true)
    (hacc : ∀ t, env.mqttConnect t = decide (j ≤ t.countP isConnectAttempt))
    (hproto : ∀ t, env.mqttConnected t = decide (Event.mqttConnect true ∈ t)) :
    (setup env fuel).2 = true ∧
    (readSensors env boot).1.soilTemp = -999 ∧
    (readSensors env boot).1.soilMoisture
      = readSoilMoisture (env.analogRead boot SOIL_MOISTURE_PIN) ∧
    (∃ t, (readSensors env boot).1.airTemp = readAirTemperature (env.dhtReadTemperature t)) ∧
    (∃ t, (readSensors env boot).1.airHumidity = readAirHumidity (env.dhtReadHumidity t)) ∧
    ∃ pre raw rssi ok post,
      (setup env fuel).1 = pre ++ Event.mqttPublish "v1/devices/me/telemetry"
        [("soil_moisture", JsonValue.float (readSensors env boot).1.soilMoisture),
          ("soil_temp", JsonValue.float (-999)),
          ("air_temp", JsonValue.float (readSensors env boot).1.airTemp),
          ("air_humidity", JsonValue.float (readSensors env boot).1.airHumidity),
          ("battery_voltage", JsonValue.float (batteryVoltage raw)),
          ("rssi", JsonValue.int rssi)] ok :: post ∧
      (∀ e ∈ pre, isPublish e = false) ∧ (∀ e ∈ post, isPublish e = false) := by
  have hst : (readSensors env boot).1.soilTemp = -999 := by
    simp [readSensors, hprobe, readSoilTemperature]
  have hcount : (linkPhase env ++ [Event.wifiStatus true]
      ++ [Event.mqttSetServer]).countP isConnectAttempt = 0 := by
    simp [List.countP_append, linkPhase_countP_connect, isConnectAttempt]
  have hloop := connectMQTTLoop_accepted env j hacc hproto j 0 fuel _
    (by rw [hcount]; omega) (by omega) hfuel (linkPhase_no_connect env true)
  refine ⟨?_, hst, rfl, ⟨_, rfl⟩, ⟨_, rfl⟩, ?_⟩
  · unfold setup connectMQTT
    simp only [hlink, if_true]
    rw [hloop]
  · have hup : env.mqttConnected (linkPhase env ++ [Event.wifiStatus true]
        ++ [Event.mqttSetServer]
        ++ repeatEvents j [Event.mqttConnected false, Event.mqttConnect false,
            Event.mqttState, Event.delay 2000]
        ++ [Event.mqttConnected false, Event.mqttConnect true, Event.mqttConnected true])
        = true := by
      rw [hproto]; simp
    obtain ⟨raw, rssi, ok, hsend⟩ := sendTelemetry_connected env
      (readSensors env boot).1.soilMoisture (readSensors env boot).1.soilTemp
      (readSensors env boot).1.airTemp (readSensors env boot).1.airHumidity _ hup
    refine ⟨linkPhase env ++ [Event.wifiStatus true] ++ [Event.mqttSetServer]
        ++ repeatEvents j [Event.mqttConnected false, Event.mqttConnect false,
            Event.mqttState, Event.delay 2000]
        ++ [Event.mqttConnected false, Event.mqttConnect true, Event.mqttConnected true]
        ++ [Event.mqttConnected true] ++ [Event.analogRead 35 raw] ++ [Event.wifiRSSI rssi],
      raw, rssi, ok, [Event.mqttLoop, Event.delay 1000, Event.mqttDisconnect] ++ powerDown,
      ?_, ?_, ?_⟩
    · unfold setup connectMQTT
      simp only [hlink, if_true]
      rw [hloop]
      simp only []
      rw [hsend, hst]
      simp [enterDeepSleep]
    · intro e he
      simp only [List.mem_append, List.mem_cons, List.mem_singleton] at he
      rcases he with ((((((h | h) | h) | h) | h) | h) | h) | h
      · exact linkPhase_no_publish env e h
      · rcases h with rfl | h
        · rfl
        · simp at h
      · rcases h with rfl | h
        · rfl
        · simp at h
      · have := mem_repeatEvents h
        simp only [List.mem_cons, List.mem_singleton] at this
        rcases this with rfl | rfl | rfl | rfl | h
        · rfl
        · rfl
        · rfl
        · rfl
        · simp at h
      · rcases h with rfl | rfl | rfl | h
        · rfl
        · rfl
        · rfl
        · simp at h
      · rcases h with rfl | h
        · rfl
        · simp at h
      · rcases h with rfl | h
        · rfl
        · simp at h
      · rcases h with rfl | h
        · rfl
        · simp at h
    · intro e he
      simp only [List.mem_append, List.mem_cons, List.mem_singleton, powerDown] at he
      rcases he with (rfl | rfl | rfl | h) | (rfl | rfl | rfl | rfl | h)
      all_goals first | rfl | simp at h

theorem fault_sentinel_published_witness :
    (setup (goodEnv (-127)) 2).2 = true ∧
    (readSensors (goodEnv (-127)) boot).1.soilTemp = -999 :=
  have h := fault_sentinel_published (goodEnv (-127)) 0 2 (by decide) (by decide)
    (fun _ => by simp [goodEnv, DEVICE_DISCONNECTED_C]) rfl
    (fun _ => by simp [goodEnv]) (fun _ => rfl)
  ⟨h.1, h.2.1⟩

end SoilSensor
